import Mathlib

/-!
Verification of the Kanban task-board permission evaluator, task store
routes, and client board reconciliation logic.

Definitions are a shallow embedding of the TypeScript source:
* `src/lib/auth-helpers.ts` — permission evaluator (`canMoveTask` and friends);
* `src/app/api/tasks/[id]/route.ts` — the PUT / PATCH handlers;
* the `POST /api/tasks` handler as listed in `src/README.md`;
* `src/lib/db-operations.ts` — the HTTP client wrappers;
* the Kanban board component (`handleTaskStatusChange`, `handleDragOver`,
  `handleDragEnd`).

JavaScript optional values are modelled by `JSVal`, which distinguishes
`undefined` from `null` from a string, because the TypeScript interfaces
declare the id fields as optional (`?: string | null`) and JS strict
equality (`===`) distinguishes all three.
-/

namespace Kanban

/-- A JavaScript value of type `string | null | undefined`, as stored in the
optional fields of `PermissionContext`.  JS strict equality (`===`) on these
values coincides with structural equality. -/
inductive JSVal where
  | undef
  | null
  | str (s : String)
deriving DecidableEq, Repr

/-- `Option String → JSVal` as a database value crosses into JS: a Prisma
nullable column is either a string or `null`, never `undefined`. -/
def jsOfOpt : Option String → JSVal
  | none => JSVal.null
  | some s => JSVal.str s

/-- Embedding of the TS `PermissionContext` interface from
`src/lib/auth-helpers.ts`.  `userRole` is kept as a raw string so that
deny-by-default on unknown roles is expressible. -/
structure PermissionContext where
  userRole : String
  userId : String
  taskOwnerId : JSVal
  taskAssigneeId : JSVal
  userAssigneeId : JSVal
deriving DecidableEq, Repr

/-- `canCreateTask` from `src/lib/auth-helpers.ts`. -/
def canCreateTask (userRole : String) : Bool :=
  userRole == "ADMIN" || userRole == "SUPERVISOR"

/-- `canEditTask` from `src/lib/auth-helpers.ts`. -/
def canEditTask (context : PermissionContext) : Bool :=
  context.userRole == "ADMIN" || context.userRole == "SUPERVISOR"

/-- `canDeleteTask` from `src/lib/auth-helpers.ts`. -/
def canDeleteTask (context : PermissionContext) : Bool :=
  context.userRole == "ADMIN" || context.userRole == "SUPERVISOR"

/-- `canAssignTask` from `src/lib/auth-helpers.ts`. -/
def canAssignTask (userRole : String) : Bool :=
  userRole == "ADMIN" || userRole == "SUPERVISOR"

/-- `canMoveTask` from `src/lib/auth-helpers.ts`.  The EMPLOYEE branch is the
JS expression `userAssigneeId !== null && taskAssigneeId === userAssigneeId`,
where `!==` / `===` are strict (in)equality on `JSVal`. -/
def canMoveTask (context : PermissionContext) : Bool :=
  if context.userRole == "ADMIN" || context.userRole == "SUPERVISOR" then
    true
  else if context.userRole == "EMPLOYEE" then
    context.userAssigneeId != JSVal.null &&
      context.taskAssigneeId == context.userAssigneeId
  else
    false

/-- `canViewTasks` from `src/lib/auth-helpers.ts`. -/
def canViewTasks (_userRole : String) : Bool :=
  true

/-- `canChangePriority` from `src/lib/auth-helpers.ts`. -/
def canChangePriority (context : PermissionContext) : Bool :=
  context.userRole == "ADMIN" || context.userRole == "SUPERVISOR"

/-- `canChangeDueDate` from `src/lib/auth-helpers.ts`. -/
def canChangeDueDate (context : PermissionContext) : Bool :=
  context.userRole == "ADMIN" || context.userRole == "SUPERVISOR"

/-- `canManageTags` from `src/lib/auth-helpers.ts`. -/
def canManageTags (context : PermissionContext) : Bool :=
  context.userRole == "ADMIN" || context.userRole == "SUPERVISOR"

end Kanban

namespace Kanban

/-- A fixed EMPLOYEE context used to instantiate witnesses: the actor has
assignee profile `a1` and the task is assigned to `a1`. -/
def ctxEmployeeOwn : PermissionContext :=
  { userRole := "EMPLOYEE"
    userId := "u1"
    taskOwnerId := JSVal.null
    taskAssigneeId := JSVal.str "a1"
    userAssigneeId := JSVal.str "a1" }

end Kanban

namespace Kanban

/-- Prisma `Status` enum (`TODO | IN_PROGRESS | DONE`). -/
inductive Status where
  | TODO
  | IN_PROGRESS
  | DONE
deriving DecidableEq, Repr

/-- `statusToEnum` from `src/app/api/tasks/[id]/route.ts`: client status
string to Prisma enum; the default branch maps any unrecognized string to
`TODO`. -/
def statusToEnum (status : String) : Status :=
  if status == "todo" then Status.TODO
  else if status == "in-progress" then Status.IN_PROGRESS
  else if status == "done" then Status.DONE
  else Status.TODO

/-- `statusFromEnum` from `src/app/api/tasks/[id]/route.ts`. -/
def statusFromEnum : Status → String
  | Status.TODO => "todo"
  | Status.IN_PROGRESS => "in-progress"
  | Status.DONE => "done"

/-- A persisted task row (Prisma `Task`). `priority` is kept as the raw
Prisma enum string since `priorityToEnum` is just `toUpperCase`. -/
structure DbTask where
  id : String
  title : String
  description : Option String
  priority : String
  status : Status
  dueDate : Option String
  assigneeId : Option String
  ownerId : Option String
deriving DecidableEq, Repr

/-- An assignee profile row (Prisma `Assignee`). -/
structure Assignee where
  id : String
  name : String
deriving DecidableEq, Repr

/-- A tag row (Prisma `Tag`); ids are modelled as naturals drawn from the
store's fresh-id counter. -/
structure Tag where
  id : Nat
  name : String
deriving DecidableEq, Repr

/-- A task-tag association row (Prisma `TaskTag`). -/
structure TaskTag where
  taskId : String
  tagId : Nat
deriving DecidableEq, Repr

/-- The persisted database state reachable by the task routes. -/
structure Store where
  tasks : List DbTask
  assignees : List Assignee
  tags : List Tag
  taskTags : List TaskTag
  nextTagId : Nat
  nextTaskId : Nat
deriving DecidableEq, Repr

/-- The authenticated user as returned by `getAuthenticatedUser`
(`src/lib/auth-helpers.ts`): `assigneeId` is the Prisma value, a string or
null. -/
structure RouteUser where
  id : String
  role : String
  assigneeId : Option String
deriving DecidableEq, Repr

/-- The permission context each task route builds: `userAssigneeId` is
`user.assigneeId || null` (so a falsy empty string also becomes null), the
task fields come straight from the fetched row. -/
def mkCtx (user : RouteUser) (task : DbTask) : PermissionContext :=
  { userRole := user.role
    userId := user.id
    taskOwnerId := jsOfOpt task.ownerId
    taskAssigneeId := jsOfOpt task.assigneeId
    userAssigneeId :=
      match user.assigneeId with
      | some a => if a = "" then JSVal.null else JSVal.str a
      | none => JSVal.null }

/-- `prisma.task.findUnique({ where: { id } })`. -/
def findTask (s : Store) (taskId : String) : Option DbTask :=
  s.tasks.find? (fun t => t.id == taskId)

/-- The parsed JSON body of a PUT request: `none` is an absent
(`undefined`) field. -/
structure TaskData where
  title : Option String
  description : Option String
  priority : Option String
  status : Option String
  dueDate : Option String
  assignee : Option String
  tags : Option (List String)
deriving DecidableEq, Repr

/-- The PUT handler's move classification:
`taskData.status !== undefined && statusToEnum(taskData.status) !== existingTask.status`. -/
def isStatusChange (d : TaskData) (existing : DbTask) : Bool :=
  match d.status with
  | some v => statusToEnum v != existing.status
  | none => false

/-- Assignee name resolution shared by the POST and PUT handlers:
`if (taskData.assignee && taskData.assignee.trim()) { findFirst by name }`,
first match wins, no match leaves the task unassigned. -/
def resolveAssigneeName (s : Store) (assignee : Option String) : Option String :=
  match assignee with
  | some a =>
      if a.trim ≠ "" then (s.assignees.find? (fun x => x.name == a)).map Assignee.id
      else none
  | none => none

/-- The `updateData` object of the PUT handler applied to the stored row:
each present field overwrites, the empty string is falsy and is normalized
to null by `|| null` / the ternary on `dueDate`. -/
def applyUpdate (t : DbTask) (d : TaskData) (resolvedAssignee : Option String) : DbTask :=
  { t with
    title := d.title.getD t.title
    description :=
      match d.description with
      | some v => if v = "" then none else some v
      | none => t.description
    priority :=
      match d.priority with
      | some p => p.toUpper
      | none => t.priority
    status :=
      match d.status with
      | some v => statusToEnum v
      | none => t.status
    dueDate :=
      match d.dueDate with
      | some v => if v = "" then none else some v
      | none => t.dueDate
    assigneeId :=
      match d.assignee with
      | some _ => resolvedAssignee
      | none => t.assigneeId }

/-- The PUT handler's tag loop: for each name, `tag.findFirst` by exact name
match, `tag.create` with a fresh id when absent, then `taskTag.create`. -/
def processTags : Store → String → List String → Store
  | s, _, [] => s
  | s, taskId, n :: ns =>
      match s.tags.find? (fun t => t.name == n) with
      | some t =>
          processTags
            { s with taskTags := s.taskTags ++ [⟨taskId, t.id⟩] } taskId ns
      | none =>
          processTags
            { s with
              tags := s.tags ++ [⟨s.nextTagId, n⟩]
              nextTagId := s.nextTagId + 1
              taskTags := s.taskTags ++ [⟨taskId, s.nextTagId⟩] } taskId ns

/-- Outcome of the PUT / PATCH handlers. -/
inductive UpdateResult where
  | notFound
  | forbidden (msg : String)
  | ok (store : Store) (task : DbTask)
deriving DecidableEq, Repr

/-- The store after a handler ran: a forbidden or not-found response leaves
the database untouched (the handlers return before any `prisma` mutation). -/
def resultStore (r : UpdateResult) (s : Store) : Store :=
  match r with
  | UpdateResult.ok s2 _ => s2
  | _ => s

/-- 403 message of the move branch. -/
def moveDeniedMsg : String := "You can only move tasks assigned to you"

/-- 403 message of the edit branch. -/
def editDeniedMsg : String := "You do not have permission to edit this task"

/-- The mutation half of the PUT handler, reached only after the permission
check passed: `prisma.task.update` with `updateData`, then, when the body
carries a tags field, `taskTag.deleteMany` for the task followed by the
find-or-create loop (which the handler guards with
`tags && tags.length > 0`). -/
def putTaskApply (taskId : String) (d : TaskData) (s : Store)
    (existing : DbTask) : UpdateResult :=
  let updated := applyUpdate existing d (resolveAssigneeName s d.assignee)
  let s1 : Store :=
    { s with
      tasks := s.tasks.map (fun t =>
        if t.id == taskId then applyUpdate t d (resolveAssigneeName s d.assignee) else t) }
  match d.tags with
  | none => UpdateResult.ok s1 updated
  | some l =>
      let s2 : Store :=
        { s1 with taskTags := s1.taskTags.filter (fun p => p.taskId ≠ taskId) }
      let s3 := if l.isEmpty then s2 else processTags s2 taskId l
      UpdateResult.ok s3 updated

/-- `PUT /api/tasks/[id]` from `src/app/api/tasks/[id]/route.ts`
(authenticated path): fetch the row, classify move vs edit, authorize,
apply `updateData`, then when a tags list is present drop every existing
association of the task and recreate from the list. -/
def putTask (user : RouteUser) (taskId : String) (d : TaskData) (s : Store) :
    UpdateResult :=
  match findTask s taskId with
  | none => UpdateResult.notFound
  | some existing =>
      if isStatusChange d existing then
        if !canMoveTask (mkCtx user existing) then UpdateResult.forbidden moveDeniedMsg
        else putTaskApply taskId d s existing
      else
        if !canEditTask (mkCtx user existing) then UpdateResult.forbidden editDeniedMsg
        else putTaskApply taskId d s existing

/-- `PATCH /api/tasks/[id]` from `src/app/api/tasks/[id]/route.ts` (the
move-only endpoint used by drag and drop): fetch the row, authorize via
`canMoveTask` only, then update the status field alone. -/
def patchTask (user : RouteUser) (taskId : String) (statusStr : String)
    (s : Store) : UpdateResult :=
  match findTask s taskId with
  | none => UpdateResult.notFound
  | some existing =>
      if !canMoveTask (mkCtx user existing) then UpdateResult.forbidden moveDeniedMsg
      else
        UpdateResult.ok
          { s with
            tasks := s.tasks.map (fun t =>
              if t.id == taskId then { t with status := statusToEnum statusStr } else t) }
          { existing with status := statusToEnum statusStr }

/-- Outcome of the POST handler.  The `validationFailed` constructor is the
400 outcome of the API error taxonomy; whether the handler ever produces it
is exactly what claim C4 is about. -/
inductive PostResult where
  | forbidden (msg : String)
  | validationFailed (msg : String)
  | ok (store : Store) (task : DbTask)
deriving DecidableEq, Repr

/-- Whether a POST outcome is the 400 validation rejection. -/
def isValidationFailed : PostResult → Bool
  | PostResult.validationFailed _ => true
  | _ => false

/-- Whether a POST outcome is a success. -/
def isOkPost : PostResult → Bool
  | PostResult.ok _ _ => true
  | _ => false

/-- The parsed JSON body of a POST request.  An absent tags field behaves
like the empty list (the handler guards with `tags && tags.length > 0`). -/
structure CreateData where
  title : String
  description : Option String
  priority : String
  status : String
  dueDate : Option String
  assignee : Option String
  tags : List String
deriving DecidableEq, Repr

/-- Fresh task ids drawn from the store counter (Prisma generates cuids). -/
def mkTaskId (n : Nat) : String := "task-" ++ toString n

/-- The row created by the POST handler listed in `src/README.md`: the
title is taken as-is (the handler contains no title validation), the
assignee name resolves to the first profile with that exact name (no match
leaves the task unassigned), and the handler sets no owner. -/
def createdTask (d : CreateData) (s : Store) : DbTask :=
  { id := mkTaskId s.nextTaskId
    title := d.title
    description :=
      match d.description with
      | some v => if v = "" then none else some v
      | none => none
    priority := d.priority.toUpper
    status := statusToEnum d.status
    dueDate :=
      match d.dueDate with
      | some v => if v = "" then none else some v
      | none => none
    assigneeId := resolveAssigneeName s d.assignee
    ownerId := none }

/-- `POST /api/tasks` as listed in `src/README.md` (authenticated path):
requires `canCreateTask`, then inserts the created row and runs the tag
find-or-create loop. -/
def postTask (user : RouteUser) (d : CreateData) (s : Store) : PostResult :=
  if !canCreateTask user.role then
    PostResult.forbidden "You do not have permission to create tasks"
  else
    let task := createdTask d s
    let s1 : Store :=
      { s with tasks := s.tasks ++ [task], nextTaskId := s.nextTaskId + 1 }
    let s2 := if d.tags.isEmpty then s1 else processTags s1 task.id d.tags
    PostResult.ok s2 task

/-- A task as the client board sees it (only the fields the drag logic
reads). -/
structure ClientTask where
  id : String
  status : String
deriving DecidableEq, Repr

/-- What the server answered to a `PATCH /api/tasks/[id]` move request, as
observed by the client `fetch`. -/
inductive MoveResponse where
  | ok (task : ClientTask)
  | forbidden (reason : String)
  | notFoundErr
  | networkError (msg : String)
deriving DecidableEq, Repr

/-- `apiClient.patch` from `src/lib/db-operations.ts`: on any non-ok HTTP
status it throws `HTTP error! status: N` without reading the response body,
so the server-provided reason is discarded here. -/
def apiClientPatch : MoveResponse → Except String ClientTask
  | MoveResponse.ok t => Except.ok t
  | MoveResponse.forbidden _ => Except.error "HTTP error! status: 403"
  | MoveResponse.notFoundErr => Except.error "HTTP error! status: 404"
  | MoveResponse.networkError m => Except.error m

/-- `updateTaskStatus` from `src/lib/db-operations.ts`: any client error is
replaced by the fixed message `Failed to update task status`. -/
def updateTaskStatusClient (r : MoveResponse) : Except String ClientTask :=
  match apiClientPatch r with
  | Except.ok t => Except.ok t
  | Except.error _ => Except.error "Failed to update task status"

/-- The board state after `handleTaskStatusChange` settles: the visible task
list, whether `loadTasks()` re-fetched the full list, and the user-facing
error state (`setError`), which the catch branch never sets. -/
structure BoardOutcome where
  tasks : List ClientTask
  refetched : Bool
  surfaced : Option String
deriving DecidableEq, Repr

/-- `handleTaskStatusChange` from the Kanban board component: optimistic
local update, then the server call; on any error it only logs and calls
`loadTasks()`, replacing the board with the re-fetched server list.
`serverTasks` is what `GET /tasks` returns at that moment. -/
def handleTaskStatusChange (tasks serverTasks : List ClientTask)
    (taskId newStatus : String) (resp : MoveResponse) : BoardOutcome :=
  let optimistic := tasks.map (fun t =>
    if t.id == taskId then { t with status := newStatus } else t)
  match updateTaskStatusClient resp with
  | Except.ok _ => { tasks := optimistic, refetched := false, surfaced := none }
  | Except.error _ => { tasks := serverTasks, refetched := true, surfaced := none }

/-- The three column ids of the board component. -/
def columnIds : List String := ["todo", "in-progress", "done"]

/-- A `PATCH` move request issued by the client. -/
structure MoveCall where
  taskId : String
  newStatus : String
deriving DecidableEq, Repr

/-- Result of one drag handler invocation: the new local task list and the
server requests it issued. -/
structure DragOverResult where
  tasks : List ClientTask
  calls : List MoveCall
deriving DecidableEq, Repr

/-- `handleDragOver` from the Kanban board component: resolve the hovered
container (column id first, else the hovered task's column) and, when it
differs from the dragged task's current column, speculatively rewrite only
that task's status in local state.  The handler contains no fetch; the
`newIndex` computation in the source does not influence the returned array
(only the status is rewritten), so it is not modelled.
`dragOverContainer` is the hovered-container resolution
`columns.find(col.id === overId)?.id || tasks.find(id === overId)?.status`. -/
def dragOverContainer (tasks : List ClientTask) (overId : String) :
    Option String :=
  match columnIds.find? (fun c => c == overId) with
  | some c => some c
  | none => (tasks.find? (fun t => t.id == overId)).map ClientTask.status

def handleDragOver (tasks : List ClientTask) (activeId : String)
    (over : Option String) : DragOverResult :=
  match over with
  | none => { tasks := tasks, calls := [] }
  | some overId =>
      match tasks.find? (fun t => t.id == activeId) with
      | none => { tasks := tasks, calls := [] }
      | some activeTask =>
          match dragOverContainer tasks overId with
          | none => { tasks := tasks, calls := [] }
          | some oc =>
              if oc == activeTask.status then { tasks := tasks, calls := [] }
              else
                { tasks := tasks.map (fun t =>
                    if t.id == activeId then { t with status := oc } else t)
                  calls := [] }

/-- The drop-target resolution of `handleDragEnd`: a column id wins, else
the status of the task dropped on, else the original status (cancelled
move). -/
def dragEndTarget (tasks : List ClientTask) (overId : String)
    (originalStatus : String) : String :=
  match columnIds.find? (fun c => c == overId) with
  | some c => c
  | none =>
      match tasks.find? (fun t => t.id == overId) with
      | some overTask => overTask.status
      | none => originalStatus

/-- The `originalTaskStatus` record: task id to status at drag start. -/
def lookupOrig (m : List (String × String)) (taskId : String) : Option String :=
  (m.find? (fun p => p.1 == taskId)).map Prod.snd

/-- Result of `handleDragEnd`: the cleaned `originalTaskStatus` map and the
server requests issued. -/
structure DragEndResult where
  originalTaskStatus : List (String × String)
  calls : List MoveCall
deriving DecidableEq, Repr

/-- `handleDragEnd` from the Kanban board component: always clears the
stored original status; with no drop target it returns; otherwise it issues
`handleTaskStatusChange` (a `PATCH` move) only when the resolved target
status differs from the status recorded at drag start. -/
def handleDragEnd (tasks : List ClientTask) (orig : List (String × String))
    (activeId : String) (over : Option String) : DragEndResult :=
  let originalStatus := lookupOrig orig activeId
  let cleaned := orig.filter (fun p => !(p.1 == activeId))
  match over with
  | none => { originalTaskStatus := cleaned, calls := [] }
  | some overId =>
      match tasks.find? (fun t => t.id == activeId), originalStatus with
      | some _, some os =>
          let newStatus := dragEndTarget tasks overId os
          if newStatus != os then
            { originalTaskStatus := cleaned, calls := [⟨activeId, newStatus⟩] }
          else
            { originalTaskStatus := cleaned, calls := [] }
      | _, _ => { originalTaskStatus := cleaned, calls := [] }

/-- Replay of a list of client move requests against the server store; an
empty list leaves the persisted state unchanged. -/
def applyCalls (user : RouteUser) : Store → List MoveCall → Store
  | s, [] => s
  | s, c :: cs =>
      applyCalls user (resultStore (patchTask user c.taskId c.newStatus s) s) cs

/-- C1: `canMove` is true for ADMIN / SUPERVISOR; for EMPLOYEE it is true iff
the actor's assignee-profile link is non-null and strictly equals the task's
assignee reference; for VIEWER it is false; and changing only the task's
assignee reference to a different non-null value flips a true EMPLOYEE
decision to false. -/
theorem canMove_role_rules (ctx : PermissionContext) :
    ((ctx.userRole = "ADMIN" ∨ ctx.userRole = "SUPERVISOR") → canMoveTask ctx = true) ∧
    (ctx.userRole = "EMPLOYEE" →
      (canMoveTask ctx = true ↔
        (ctx.userAssigneeId ≠ JSVal.null ∧ ctx.taskAssigneeId = ctx.userAssigneeId))) ∧
    (ctx.userRole = "VIEWER" → canMoveTask ctx = false) ∧
    (∀ v : String, ctx.userRole = "EMPLOYEE" → canMoveTask ctx = true →
      JSVal.str v ≠ ctx.taskAssigneeId →
      canMoveTask { ctx with taskAssigneeId := JSVal.str v } = false) := by
  refine ⟨?_, ?_, ?_, ?_⟩
  · rintro (h | h) <;> simp [canMoveTask, h]
  · intro h
    simp [canMoveTask, h]
  · intro h
    simp [canMoveTask, h]
  · intro v hrole htrue hne
    have h1 := htrue
    simp [canMoveTask, hrole] at h1 ⊢
    intro _
    rcases h1 with ⟨_, h2⟩
    intro hcontra
    exact hne (hcontra.trans h2.symm)

/-- Witness for C1 at a concrete EMPLOYEE context. -/
theorem canMove_role_rules_witness :
    canMoveTask ctxEmployeeOwn = true ↔
      (ctxEmployeeOwn.userAssigneeId ≠ JSVal.null ∧
        ctxEmployeeOwn.taskAssigneeId = ctxEmployeeOwn.userAssigneeId) :=
  (canMove_role_rules ctxEmployeeOwn).2.1 rfl

/-- C9: the four role-only mutating decisions are true exactly for
ADMIN / SUPERVISOR regardless of ownership or assignment; a VIEWER has no
mutating permission at all; `canViewTasks` is true for every role. -/
theorem role_only_permission_rules (ctx : PermissionContext) :
    (canCreateTask ctx.userRole = true ↔
      (ctx.userRole = "ADMIN" ∨ ctx.userRole = "SUPERVISOR")) ∧
    (canEditTask ctx = true ↔
      (ctx.userRole = "ADMIN" ∨ ctx.userRole = "SUPERVISOR")) ∧
    (canDeleteTask ctx = true ↔
      (ctx.userRole = "ADMIN" ∨ ctx.userRole = "SUPERVISOR")) ∧
    (canAssignTask ctx.userRole = true ↔
      (ctx.userRole = "ADMIN" ∨ ctx.userRole = "SUPERVISOR")) ∧
    (ctx.userRole = "VIEWER" →
      canMoveTask ctx = false ∧ canEditTask ctx = false ∧
      canDeleteTask ctx = false ∧ canCreateTask ctx.userRole = false ∧
      canAssignTask ctx.userRole = false) ∧
    canViewTasks ctx.userRole = true := by
  refine ⟨?_, ?_, ?_, ?_, ?_, rfl⟩
  · simp [canCreateTask]
  · simp [canEditTask]
  · simp [canDeleteTask]
  · simp [canAssignTask]
  · intro h
    simp [canMoveTask, canEditTask, canDeleteTask, canCreateTask, canAssignTask, h]

/-- Witness for C9 at a concrete VIEWER context. -/
theorem role_only_permission_rules_witness :
    canMoveTask { ctxEmployeeOwn with userRole := "VIEWER" } = false ∧
    canEditTask { ctxEmployeeOwn with userRole := "VIEWER" } = false ∧
    canDeleteTask { ctxEmployeeOwn with userRole := "VIEWER" } = false ∧
    canCreateTask "VIEWER" = false ∧ canAssignTask "VIEWER" = false :=
  (role_only_permission_rules { ctxEmployeeOwn with userRole := "VIEWER" }).2.2.2.2.1 rfl

/-- C3 counterexample: the claim says an EMPLOYEE actor whose
assignee-profile link is null **or missing** is always denied `canMove`.
That is false: with the link missing (`undefined`) and the task record's
`taskAssigneeId` field also missing (`undefined`, legal for the optional TS
field), the JS checks `undefined !== null` and `undefined === undefined`
both pass and `canMoveTask` returns true. -/
theorem canMove_undef_link_counterexample :
    canMoveTask
      { userRole := "EMPLOYEE", userId := "u1", taskOwnerId := JSVal.null,
        taskAssigneeId := JSVal.undef, userAssigneeId := JSVal.undef } = true := by
  decide

/-- C3 (amended): every decision function is a total boolean function (never
throws); an unknown role gets no mutating permission (deny-by-default); and
for EMPLOYEE, `canMove` is false whenever the task's assignee reference is
null, whenever the actor's assignee-profile link is null, and whenever the
link is missing (`undefined`) provided the task's assignee field is not
itself the missing value `undefined` (the one JS corner where
`undefined === undefined` lets the check pass). -/
theorem decision_functions_deny_by_default (ctx : PermissionContext) :
    (canMoveTask ctx = true ∨ canMoveTask ctx = false) ∧
    (canCreateTask ctx.userRole = true ∨ canCreateTask ctx.userRole = false) ∧
    (canEditTask ctx = true ∨ canEditTask ctx = false) ∧
    (ctx.userRole ≠ "ADMIN" → ctx.userRole ≠ "SUPERVISOR" →
      ctx.userRole ≠ "EMPLOYEE" → ctx.userRole ≠ "VIEWER" →
      canCreateTask ctx.userRole = false ∧ canEditTask ctx = false ∧
      canDeleteTask ctx = false ∧ canAssignTask ctx.userRole = false ∧
      canMoveTask ctx = false ∧ canChangePriority ctx = false ∧
      canChangeDueDate ctx = false ∧ canManageTags ctx = false) ∧
    (ctx.userRole = "EMPLOYEE" →
      (ctx.taskAssigneeId = JSVal.null → canMoveTask ctx = false) ∧
      (ctx.userAssigneeId = JSVal.null → canMoveTask ctx = false) ∧
      (ctx.userAssigneeId = JSVal.undef → ctx.taskAssigneeId ≠ JSVal.undef →
        canMoveTask ctx = false)) := by
  refine ⟨?_, ?_, ?_, ?_, ?_⟩
  · cases h : canMoveTask ctx
    · exact Or.inr rfl
    · exact Or.inl rfl
  · cases h : canCreateTask ctx.userRole
    · exact Or.inr rfl
    · exact Or.inl rfl
  · cases h : canEditTask ctx
    · exact Or.inr rfl
    · exact Or.inl rfl
  · intro h1 h2 h3 h4
    simp [canCreateTask, canEditTask, canDeleteTask, canAssignTask,
      canMoveTask, canChangePriority, canChangeDueDate, canManageTags,
      h1, h2, h3, h4]
  · intro hrole
    refine ⟨?_, ?_, ?_⟩
    · intro hta
      simp [canMoveTask, hrole, hta]
      intro hne heq
      exact absurd heq.symm hne
    · intro hua
      simp [canMoveTask, hrole, hua]
    · intro hua hta
      simp [canMoveTask, hrole, hua]
      intro h
      exact absurd h hta

/-- Witness for C3 (amended): an unknown role `"MANAGER"` gets no mutating
permission, and a concrete EMPLOYEE context with a null task assignee is
denied. -/
theorem decision_functions_deny_by_default_witness :
    canMoveTask { ctxEmployeeOwn with userRole := "MANAGER" } = false ∧
    canMoveTask { ctxEmployeeOwn with taskAssigneeId := JSVal.null } = false :=
  ⟨((decision_functions_deny_by_default { ctxEmployeeOwn with userRole := "MANAGER" }).2.2.2.1
      (by decide) (by decide) (by decide) (by decide)).2.2.2.2.1,
   ((decision_functions_deny_by_default
      { ctxEmployeeOwn with taskAssigneeId := JSVal.null }).2.2.2.2 rfl).1 rfl⟩

end Kanban

namespace Kanban

theorem statusToEnum_statusFromEnum (st : Status) :
    statusToEnum (statusFromEnum st) = st := by
  cases st <;> rfl

theorem statusToEnum_unknown (s : String) (h1 : s ≠ "todo")
    (h2 : s ≠ "in-progress") (h3 : s ≠ "done") :
    statusToEnum s = Status.TODO := by
  simp [statusToEnum, h1, h2, h3]

theorem find?_map_update (l : List DbTask) (taskId : String)
    (f : DbTask → DbTask) (hf : ∀ t, (f t).id = t.id) (existing : DbTask)
    (h : l.find? (fun t => t.id == taskId) = some existing) :
    (l.map (fun t => if t.id == taskId then f t else t)).find?
      (fun t => t.id == taskId) = some (f existing) := by
  induction l with
  | nil => simp at h
  | cons a rest ih =>
    simp only [List.map_cons]
    by_cases ha : a.id = taskId
    · rw [List.find?_cons_of_pos _ (by simp [ha])] at h
      injection h with h2
      subst h2
      rw [if_pos (by simp [ha])]
      exact List.find?_cons_of_pos _ (by simp [hf, ha])
    · rw [List.find?_cons_of_neg _ (by simp [ha])] at h
      rw [if_neg (by simp [ha]), List.find?_cons_of_neg _ (by simp [ha])]
      exact ih h

theorem processTags_tasks (l : List String) :
    ∀ (s : Store) (taskId : String), (processTags s taskId l).tasks = s.tasks := by
  induction l with
  | nil => intro s taskId; rfl
  | cons n ns ih =>
    intro s taskId
    unfold processTags
    cases h : s.tags.find? (fun t => t.name == n) with
    | some t => rw [ih]
    | none => rw [ih]

theorem putTaskApply_ok (taskId : String) (d : TaskData) (s : Store)
    (existing : DbTask) :
    ∃ s2, putTaskApply taskId d s existing =
        UpdateResult.ok s2 (applyUpdate existing d (resolveAssigneeName s d.assignee)) ∧
      s2.tasks = s.tasks.map (fun t =>
        if t.id == taskId then applyUpdate t d (resolveAssigneeName s d.assignee) else t) := by
  unfold putTaskApply
  cases h : d.tags with
  | none => exact ⟨_, rfl, rfl⟩
  | some l =>
    refine ⟨_, rfl, ?_⟩
    by_cases hl : l.isEmpty
    · simp [hl]
    · simp [hl, processTags_tasks]

end Kanban

namespace Kanban

/-- Concrete fixtures used by witnesses. -/
def adminUser : RouteUser := { id := "u0", role := "ADMIN", assigneeId := none }

def employeeUser : RouteUser := { id := "u1", role := "EMPLOYEE", assigneeId := some "a1" }

def task1 : DbTask :=
  { id := "t1", title := "Ship report", description := none, priority := "HIGH",
    status := Status.TODO, dueDate := none, assigneeId := some "a1", ownerId := none }

def store1 : Store :=
  { tasks := [task1]
    assignees := [{ id := "a1", name := "Sarah Chen" }]
    tags := [{ id := 0, name := "a" }, { id := 1, name := "b" }]
    taskTags := [{ taskId := "t1", tagId := 0 }, { taskId := "t1", tagId := 1 }]
    nextTagId := 2
    nextTaskId := 2 }

/-- A combined move-plus-edit request: status change to done plus a title
change. -/
def dMoveEdit : TaskData :=
  { title := some "Ship report v2", description := none, priority := none,
    status := some "done", dueDate := none, assignee := none, tags := none }

/-- C2: for an existing task, a request whose status converts to a value
different from the stored status is authorized solely by `canMove` (and on
success all provided fields are applied); any other request is authorized by
`canEdit`; a false check yields Forbidden and leaves the store unchanged. -/
theorem put_authorization_precedence (user : RouteUser) (taskId : String)
    (d : TaskData) (s : Store) (existing : DbTask)
    (hfind : findTask s taskId = some existing) :
    (isStatusChange d existing = true →
      (canMoveTask (mkCtx user existing) = false →
        putTask user taskId d s = UpdateResult.forbidden moveDeniedMsg ∧
        resultStore (putTask user taskId d s) s = s) ∧
      (canMoveTask (mkCtx user existing) = true →
        ∃ s2, putTask user taskId d s =
            UpdateResult.ok s2 (applyUpdate existing d (resolveAssigneeName s d.assignee)) ∧
          findTask s2 taskId =
            some (applyUpdate existing d (resolveAssigneeName s d.assignee)))) ∧
    (isStatusChange d existing = false →
      (canEditTask (mkCtx user existing) = false →
        putTask user taskId d s = UpdateResult.forbidden editDeniedMsg ∧
        resultStore (putTask user taskId d s) s = s) ∧
      (canEditTask (mkCtx user existing) = true →
        ∃ s2, putTask user taskId d s =
            UpdateResult.ok s2 (applyUpdate existing d (resolveAssigneeName s d.assignee)) ∧
          findTask s2 taskId =
            some (applyUpdate existing d (resolveAssigneeName s d.assignee)))) := by
  obtain ⟨s2, heq, htasks⟩ := putTaskApply_ok taskId d s existing
  have hfind2 : findTask s2 taskId =
      some (applyUpdate existing d (resolveAssigneeName s d.assignee)) := by
    unfold findTask at hfind ⊢
    rw [htasks]
    exact find?_map_update s.tasks taskId
      (fun t => applyUpdate t d (resolveAssigneeName s d.assignee))
      (fun t => rfl) existing hfind
  constructor
  · intro hmoveCase
    constructor
    · intro hnomove
      have hres : putTask user taskId d s = UpdateResult.forbidden moveDeniedMsg := by
        simp [putTask, hfind, hmoveCase, hnomove]
      exact ⟨hres, by rw [hres]; rfl⟩
    · intro hmove
      refine ⟨s2, ?_, hfind2⟩
      simp [putTask, hfind, hmoveCase, hmove, heq]
  · intro heditCase
    constructor
    · intro hnoedit
      have hres : putTask user taskId d s = UpdateResult.forbidden editDeniedMsg := by
        simp [putTask, hfind, heditCase, hnoedit]
      exact ⟨hres, by rw [hres]; rfl⟩
    · intro hedit
      refine ⟨s2, ?_, hfind2⟩
      simp [putTask, hfind, heditCase, hedit, heq]

/-- Witness for C2: an EMPLOYEE assigned to the task (so `canMove` holds but
`canEdit` does not) issues a combined status+title update; it succeeds and
the title is applied. -/
theorem put_authorization_precedence_witness :
    ∃ s2, putTask employeeUser "t1" dMoveEdit store1 =
        UpdateResult.ok s2
          (applyUpdate task1 dMoveEdit (resolveAssigneeName store1 dMoveEdit.assignee)) ∧
      findTask s2 "t1" =
        some (applyUpdate task1 dMoveEdit (resolveAssigneeName store1 dMoveEdit.assignee)) :=
  ((put_authorization_precedence employeeUser "t1" dMoveEdit store1 task1
    (by decide)).1 (by decide)).2 (by decide)

/-- C6: a `Move` (PATCH) to the task's current status issued by any
authorized actor succeeds and leaves the task unchanged — an accepted no-op
rather than a rejected non-move. -/
theorem patch_same_status_idempotent (user : RouteUser) (taskId : String)
    (s : Store) (existing : DbTask)
    (hfind : findTask s taskId = some existing)
    (hmove : canMoveTask (mkCtx user existing) = true) :
    ∃ s2, patchTask user taskId (statusFromEnum existing.status) s =
        UpdateResult.ok s2 existing ∧
      findTask s2 taskId = some existing := by
  have hround : statusToEnum (statusFromEnum existing.status) = existing.status :=
    statusToEnum_statusFromEnum existing.status
  have h1 : patchTask user taskId (statusFromEnum existing.status) s =
      UpdateResult.ok
        { s with tasks := s.tasks.map (fun t =>
            if t.id == taskId
            then { t with status := statusToEnum (statusFromEnum existing.status) } else t) }
        existing := by
    simp only [patchTask, hfind, hmove, Bool.not_true, Bool.false_eq_true, if_false]
    rw [hround]
  refine ⟨_, h1, ?_⟩
  unfold findTask
  simp only [hround]
  exact find?_map_update s.tasks taskId
    (fun t => { t with status := existing.status })
    (fun t => rfl) existing hfind

/-- Witness for C6 at the concrete store: the assigned EMPLOYEE moves the
task onto its current column. -/
theorem patch_same_status_idempotent_witness :
    ∃ s2, patchTask employeeUser "t1" (statusFromEnum task1.status) store1 =
        UpdateResult.ok s2 task1 ∧
      findTask s2 "t1" = some task1 :=
  patch_same_status_idempotent employeeUser "t1" store1 task1 (by decide) (by decide)

end Kanban

namespace Kanban

/-- C10: a status string outside the three known values is not rejected:
`statusToEnum` maps it to `TODO`, so an authorized PATCH (and an authorized
PUT carrying such a status) succeeds and persists the task with status
`TODO`. -/
theorem unknown_status_accepted_as_todo (user : RouteUser) (taskId : String)
    (s : Store) (existing : DbTask) (sstr : String)
    (hfind : findTask s taskId = some existing)
    (h1 : sstr ≠ "todo") (h2 : sstr ≠ "in-progress") (h3 : sstr ≠ "done") :
    statusToEnum sstr = Status.TODO ∧
    (canMoveTask (mkCtx user existing) = true →
      ∃ s2 t2, patchTask user taskId sstr s = UpdateResult.ok s2 t2 ∧
        t2.status = Status.TODO ∧ findTask s2 taskId = some t2) ∧
    (∀ d : TaskData, d.status = some sstr →
      (if isStatusChange d existing then canMoveTask (mkCtx user existing)
        else canEditTask (mkCtx user existing)) = true →
      ∃ s2 t2, putTask user taskId d s = UpdateResult.ok s2 t2 ∧
        t2.status = Status.TODO) := by
  have htodo : statusToEnum sstr = Status.TODO := statusToEnum_unknown sstr h1 h2 h3
  refine ⟨htodo, ?_, ?_⟩
  · intro hmove
    refine ⟨{ s with tasks := s.tasks.map (fun t =>
        if t.id == taskId then { t with status := statusToEnum sstr } else t) },
      { existing with status := statusToEnum sstr }, ?_, ?_, ?_⟩
    · simp only [patchTask, hfind, hmove, Bool.not_true, Bool.false_eq_true, if_false]
    · simp [htodo]
    · unfold findTask
      exact find?_map_update s.tasks taskId
        (fun t => { t with status := statusToEnum sstr })
        (fun t => rfl) existing hfind
  · intro d hd hauth
    obtain ⟨s2, heq, _⟩ := putTaskApply_ok taskId d s existing
    refine ⟨s2, applyUpdate existing d (resolveAssigneeName s d.assignee), ?_, ?_⟩
    · by_cases hsc : isStatusChange d existing = true
      · rw [if_pos hsc] at hauth
        simp [putTask, hfind, hsc, hauth, heq]
      · have hsc2 : isStatusChange d existing = false := by
          cases hval : isStatusChange d existing
          · rfl
          · exact absurd hval hsc
        rw [if_neg (by simp [hsc2])] at hauth
        simp [putTask, hfind, hsc2, hauth, heq]
    · simp [applyUpdate, hd, htodo]

/-- Witness for C10: the assigned EMPLOYEE patches the task with the bogus
status string `blocked`; the request succeeds and the row is stored as
`TODO`. -/
theorem unknown_status_accepted_as_todo_witness :
    ∃ s2 t2, patchTask employeeUser "t1" "blocked" store1 = UpdateResult.ok s2 t2 ∧
      t2.status = Status.TODO ∧ findTask s2 "t1" = some t2 :=
  (unknown_status_accepted_as_todo employeeUser "t1" store1 task1 "blocked"
    (by decide) (by decide) (by decide) (by decide)).2.1 (by decide)

end Kanban

namespace Kanban

/-- Tag name `name` is associated to task `taskId` in store `s`. -/
def taskHasTag (s : Store) (taskId name : String) : Prop :=
  ∃ t, t ∈ s.tags ∧ t.name = name ∧ TaskTag.mk taskId t.id ∈ s.taskTags

/-- Store sanity for the tag table: every tag id is below the fresh-id
counter and ids are pairwise distinct.  Both hold in every store reachable
from an empty database, since tags are only ever created with the counter
value. -/
def WfTags (s : Store) : Prop :=
  (∀ t ∈ s.tags, t.id < s.nextTagId) ∧ (s.tags.map Tag.id).Nodup

theorem WfTags_extend (s : Store) (v : String) (tts : List TaskTag)
    (hwf : WfTags s) :
    WfTags { s with
             tags := s.tags ++ [⟨s.nextTagId, v⟩],
             nextTagId := s.nextTagId + 1,
             taskTags := tts } := by
  obtain ⟨hbound, hnodup⟩ := hwf
  constructor
  · intro t ht
    rcases List.mem_append.mp ht with h | h
    · exact Nat.lt_trans (hbound t h) (Nat.lt_succ_self _)
    · have heq : t = (⟨s.nextTagId, v⟩ : Tag) := by simpa using h
      subst heq
      exact Nat.lt_succ_self _
  · rw [List.map_append]
    refine List.Nodup.append hnodup (by simp) ?_
    intro a ha hb
    simp only [List.map_cons, List.map_nil, List.mem_singleton] at hb
    subst hb
    rw [List.mem_map] at ha
    obtain ⟨t, htmem, htid⟩ := ha
    exact absurd htid (Nat.ne_of_lt (hbound t htmem))

theorem taskHasTag_append_found (s : Store) (taskId n v : String) (t0 : Tag)
    (hfind : s.tags.find? (fun t => t.name == v) = some t0)
    (hnodup : (s.tags.map Tag.id).Nodup) :
    taskHasTag { s with taskTags := s.taskTags ++ [⟨taskId, t0.id⟩] } taskId n ↔
      (taskHasTag s taskId n ∨ n = v) := by
  have ht0mem : t0 ∈ s.tags := List.mem_of_find?_eq_some hfind
  have ht0name : t0.name = v := by
    have := List.find?_some hfind
    simpa using this
  constructor
  · rintro ⟨t, htmem, htname, hpair⟩
    rcases List.mem_append.mp hpair with hin | hlast
    · exact Or.inl ⟨t, htmem, htname, hin⟩
    · have heq : TaskTag.mk taskId t.id = TaskTag.mk taskId t0.id := by
        simpa using hlast
      have hid : t.id = t0.id := by injection heq
      have hteq : t = t0 := List.inj_on_of_nodup_map hnodup htmem ht0mem hid
      subst hteq
      exact Or.inr (htname.symm.trans ht0name)
  · rintro (⟨t, htmem, htname, hpair⟩ | hnv)
    · exact ⟨t, htmem, htname, List.mem_append_left _ hpair⟩
    · subst hnv
      exact ⟨t0, ht0mem, ht0name, List.mem_append_right _ (by simp)⟩

theorem taskHasTag_append_new (s : Store) (taskId n v : String)
    (hwf : WfTags s) :
    taskHasTag { s with
                 tags := s.tags ++ [⟨s.nextTagId, v⟩],
                 nextTagId := s.nextTagId + 1,
                 taskTags := s.taskTags ++ [⟨taskId, s.nextTagId⟩] } taskId n ↔
      (taskHasTag s taskId n ∨ n = v) := by
  obtain ⟨hbound, _⟩ := hwf
  constructor
  · rintro ⟨t, htmem, htname, hpair⟩
    rcases List.mem_append.mp htmem with htold | htnew
    · rcases List.mem_append.mp hpair with hpold | hpnew
      · exact Or.inl ⟨t, htold, htname, hpold⟩
      · have heq : TaskTag.mk taskId t.id = TaskTag.mk taskId s.nextTagId := by
          simpa using hpnew
        have hid : t.id = s.nextTagId := by injection heq
        exact absurd hid (Nat.ne_of_lt (hbound t htold))
    · have heq : t = (⟨s.nextTagId, v⟩ : Tag) := by simpa using htnew
      subst heq
      exact Or.inr htname.symm
  · rintro (⟨t, htmem, htname, hpair⟩ | hnv)
    · exact ⟨t, List.mem_append_left _ htmem, htname, List.mem_append_left _ hpair⟩
    · subst hnv
      exact ⟨⟨s.nextTagId, n⟩, List.mem_append_right _ (by simp), rfl,
        List.mem_append_right _ (by simp)⟩

theorem processTags_taskHasTag (l : List String) :
    ∀ (s : Store) (taskId n : String), WfTags s →
      (taskHasTag (processTags s taskId l) taskId n ↔
        (taskHasTag s taskId n ∨ n ∈ l)) := by
  induction l with
  | nil =>
    intro s taskId n _
    simp [processTags]
  | cons v vs ih =>
    intro s taskId n hwf
    cases hfind : s.tags.find? (fun t => t.name == v) with
    | some t0 =>
      have hstep : processTags s taskId (v :: vs) =
          processTags { s with taskTags := s.taskTags ++ [⟨taskId, t0.id⟩] } taskId vs := by
        conv_lhs => rw [processTags]
        rw [hfind]
      rw [hstep, ih { s with taskTags := s.taskTags ++ [⟨taskId, t0.id⟩] } taskId n hwf,
        taskHasTag_append_found s taskId n v t0 hfind hwf.2]
      simp [or_assoc]
    | none =>
      have hstep : processTags s taskId (v :: vs) =
          processTags { s with
                        tags := s.tags ++ [⟨s.nextTagId, v⟩],
                        nextTagId := s.nextTagId + 1,
                        taskTags := s.taskTags ++ [⟨taskId, s.nextTagId⟩] } taskId vs := by
        conv_lhs => rw [processTags]
        rw [hfind]
      rw [hstep,
        ih { s with
             tags := s.tags ++ [⟨s.nextTagId, v⟩],
             nextTagId := s.nextTagId + 1,
             taskTags := s.taskTags ++ [⟨taskId, s.nextTagId⟩] } taskId n
          (WfTags_extend s v _ hwf),
        taskHasTag_append_new s taskId n v hwf]
      simp [or_assoc]

theorem processTags_tags_subset (l : List String) :
    ∀ (s : Store) (taskId : String) (t : Tag), t ∈ s.tags →
      t ∈ (processTags s taskId l).tags := by
  induction l with
  | nil =>
    intro s taskId t ht
    exact ht
  | cons v vs ih =>
    intro s taskId t ht
    cases hfind : s.tags.find? (fun x => x.name == v) with
    | some t0 =>
      have hstep : processTags s taskId (v :: vs) =
          processTags { s with taskTags := s.taskTags ++ [⟨taskId, t0.id⟩] } taskId vs := by
        conv_lhs => rw [processTags]
        rw [hfind]
      rw [hstep]
      exact ih _ taskId t ht
    | none =>
      have hstep : processTags s taskId (v :: vs) =
          processTags { s with
                        tags := s.tags ++ [⟨s.nextTagId, v⟩],
                        nextTagId := s.nextTagId + 1,
                        taskTags := s.taskTags ++ [⟨taskId, s.nextTagId⟩] } taskId vs := by
        conv_lhs => rw [processTags]
        rw [hfind]
      rw [hstep]
      exact ih _ taskId t (List.mem_append_left _ ht)

theorem not_taskHasTag_of_filtered (s2 : Store) (tts : List TaskTag)
    (taskId n : String)
    (h : s2.taskTags = tts.filter (fun p => p.taskId ≠ taskId)) :
    ¬ taskHasTag s2 taskId n := by
  rintro ⟨t, _, _, hpair⟩
  rw [h] at hpair
  have h2 := List.mem_filter.mp hpair
  simp at h2

end Kanban

namespace Kanban

theorem putTaskApply_tags (taskId : String) (d : TaskData) (s : Store)
    (existing : DbTask) (l : List String)
    (hwf : WfTags s) (htags : d.tags = some l) :
    ∃ s2, putTaskApply taskId d s existing =
        UpdateResult.ok s2 (applyUpdate existing d (resolveAssigneeName s d.assignee)) ∧
      (∀ n, taskHasTag s2 taskId n ↔ n ∈ l) ∧
      (∀ t, t ∈ s.tags → t ∈ s2.tags) := by
  simp only [putTaskApply, htags]
  refine ⟨_, rfl, ?_, ?_⟩
  · intro n
    by_cases hl : l.isEmpty
    · rw [if_pos hl]
      have hlnil : l = [] := by simpa [List.isEmpty_iff] using hl
      subst hlnil
      constructor
      · intro h
        exact absurd h (not_taskHasTag_of_filtered _ _ taskId n rfl)
      · intro h
        simp at h
    · rw [if_neg hl]
      rw [processTags_taskHasTag l
        { s with
          tasks := s.tasks.map (fun t =>
            if t.id == taskId then applyUpdate t d (resolveAssigneeName s d.assignee) else t)
          taskTags := s.taskTags.filter (fun p => p.taskId ≠ taskId) } taskId n hwf]
      have hno := not_taskHasTag_of_filtered
        { s with
          tasks := s.tasks.map (fun t =>
            if t.id == taskId then applyUpdate t d (resolveAssigneeName s d.assignee) else t)
          taskTags := s.taskTags.filter (fun p => p.taskId ≠ taskId) }
        s.taskTags taskId n rfl
      constructor
      · rintro (h | h)
        · exact absurd h hno
        · exact h
      · intro h
        exact Or.inr h
  · intro t ht
    by_cases hl : l.isEmpty
    · rw [if_pos hl]
      exact ht
    · rw [if_neg hl]
      exact processTags_tags_subset l
        { s with
          tasks := s.tasks.map (fun t =>
            if t.id == taskId then applyUpdate t d (resolveAssigneeName s d.assignee) else t)
          taskTags := s.taskTags.filter (fun p => p.taskId ≠ taskId) } taskId t ht

/-- C5: an authorized PUT carrying a tags list makes the task's associated
tag-name set exactly the set of names in the request: old associations not
in the list are dropped, every name in the list is resolved to an existing
tag by exact name match or a freshly created one and associated, and no tag
is removed from the global tag table. -/
theorem put_tags_full_replace (user : RouteUser) (taskId : String)
    (d : TaskData) (s : Store) (existing : DbTask) (l : List String)
    (hwf : WfTags s) (hfind : findTask s taskId = some existing)
    (htags : d.tags = some l)
    (hauth : (if isStatusChange d existing then canMoveTask (mkCtx user existing)
        else canEditTask (mkCtx user existing)) = true) :
    ∃ s2 t2, putTask user taskId d s = UpdateResult.ok s2 t2 ∧
      (∀ n, taskHasTag s2 taskId n ↔ n ∈ l) ∧
      (∀ t, t ∈ s.tags → t ∈ s2.tags) := by
  obtain ⟨s2, heq, hassoc, hsub⟩ := putTaskApply_tags taskId d s existing l hwf htags
  refine ⟨s2, applyUpdate existing d (resolveAssigneeName s d.assignee), ?_, hassoc, hsub⟩
  by_cases hsc : isStatusChange d existing = true
  · rw [if_pos hsc] at hauth
    simp [putTask, hfind, hsc, hauth, heq]
  · have hsc2 : isStatusChange d existing = false := by
      cases hval : isStatusChange d existing
      · rfl
      · exact absurd hval hsc
    rw [if_neg (by simp [hsc2])] at hauth
    simp [putTask, hfind, hsc2, hauth, heq]

/-- The spec's own example request: replace the task's tags
`a, b` by `b, c`. -/
def dTagsReplace : TaskData :=
  { title := none, description := none, priority := none,
    status := none, dueDate := none, assignee := none,
    tags := some ["b", "c"] }

/-- Witness for C5: replacing tags `a, b` by `b, c` on the concrete store
leaves exactly `b, c` associated while tag `a` survives in the tag table. -/
theorem put_tags_full_replace_witness :
    ∃ s2 t2, putTask adminUser "t1" dTagsReplace store1 = UpdateResult.ok s2 t2 ∧
      (∀ n, taskHasTag s2 "t1" n ↔ n ∈ ["b", "c"]) ∧
      (∀ t, t ∈ store1.tags → t ∈ s2.tags) :=
  put_tags_full_replace adminUser "t1" dTagsReplace store1 task1 ["b", "c"]
    ⟨by decide, by decide⟩ (by decide) rfl (by decide)

end Kanban

namespace Kanban

/-- C4 counterexample: the claim says creation fails with `ValidationFailed`
when the title is empty.  The POST handler listed in the repository performs
no title validation: an authorized request with an empty title succeeds and
creates the task (with the empty title), it is not rejected with the 400
outcome. -/
theorem post_empty_title_not_rejected :
    isValidationFailed
      (postTask adminUser
        { title := "", description := none, priority := "high",
          status := "todo", dueDate := none, assignee := none, tags := [] }
        store1) = false ∧
    isOkPost
      (postTask adminUser
        { title := "", description := none, priority := "high",
          status := "todo", dueDate := none, assignee := none, tags := [] }
        store1) = true := by
  constructor
  · rfl
  · rfl

/-- C4 (amended): Create requires `canCreate` and answers Forbidden without
it; a provided non-blank assignee name resolves to the first profile with
that exact name and an unmatched name leaves the task unassigned rather
than failing; but an empty title is not validated — the handler never
returns `ValidationFailed` and creates the task with the title exactly as
sent, empty or not. -/
theorem post_create_rules (user : RouteUser) (d : CreateData) (s : Store) :
    (canCreateTask user.role = false →
      postTask user d s =
        PostResult.forbidden "You do not have permission to create tasks") ∧
    (canCreateTask user.role = true →
      ∃ s2 t2, postTask user d s = PostResult.ok s2 t2 ∧
        t2.title = d.title ∧
        t2.assigneeId = resolveAssigneeName s d.assignee ∧
        (∀ a, d.assignee = some a → a.trim ≠ "" →
          t2.assigneeId = (s.assignees.find? (fun x => x.name == a)).map Assignee.id) ∧
        (∀ a, d.assignee = some a →
          s.assignees.find? (fun x => x.name == a) = none → t2.assigneeId = none) ∧
        (∀ m, postTask user d s ≠ PostResult.validationFailed m)) := by
  constructor
  · intro hno
    simp [postTask, hno]
  · intro hyes
    have heqn : postTask user d s = PostResult.ok
        (if d.tags.isEmpty
          then { s with tasks := s.tasks ++ [createdTask d s],
                        nextTaskId := s.nextTaskId + 1 }
          else processTags
            { s with tasks := s.tasks ++ [createdTask d s],
                     nextTaskId := s.nextTaskId + 1 }
            (createdTask d s).id d.tags)
        (createdTask d s) := by
      simp [postTask, hyes]
    refine ⟨_, createdTask d s, heqn, rfl, rfl, ?_, ?_, ?_⟩
    · intro a ha htrim
      show resolveAssigneeName s d.assignee = _
      simp [resolveAssigneeName, ha, htrim]
    · intro a ha hnone
      show resolveAssigneeName s d.assignee = none
      simp [resolveAssigneeName, ha, hnone]
    · intro m hcontra
      rw [heqn] at hcontra
      exact PostResult.noConfusion hcontra

/-- Witness for C4 (amended): the admin creates a task whose assignee name
matches no profile; the task is created unassigned. -/
theorem post_create_rules_witness :
    ∃ s2 t2, postTask adminUser
        { title := "Ship report", description := none, priority := "high",
          status := "todo", dueDate := none, assignee := some "Nobody Known",
          tags := [] } store1 = PostResult.ok s2 t2 ∧
      t2.title = "Ship report" ∧
      t2.assigneeId = resolveAssigneeName store1 (some "Nobody Known") ∧
      (∀ a, (some "Nobody Known" : Option String) = some a → a.trim ≠ "" →
        t2.assigneeId = (store1.assignees.find? (fun x => x.name == a)).map Assignee.id) ∧
      (∀ a, (some "Nobody Known" : Option String) = some a →
        store1.assignees.find? (fun x => x.name == a) = none → t2.assigneeId = none) ∧
      (∀ m, postTask adminUser
        { title := "Ship report", description := none, priority := "high",
          status := "todo", dueDate := none, assignee := some "Nobody Known",
          tags := [] } store1 ≠ PostResult.validationFailed m) :=
  (post_create_rules adminUser
    { title := "Ship report", description := none, priority := "high",
      status := "todo", dueDate := none, assignee := some "Nobody Known",
      tags := [] } store1).2 (by decide)

/-- C7 counterexample: the claim says the engine surfaces the server's
Forbidden reason verbatim.  It does not: the HTTP client throws a generic
`HTTP error! status: 403` without reading the body, `updateTaskStatus`
replaces even that with `Failed to update task status`, and the board
handler only logs it — the user-facing error state stays empty (while the
full-list refetch does happen). -/
theorem move_forbidden_reason_swallowed :
    (handleTaskStatusChange [⟨"t1", "todo"⟩] [⟨"t1", "todo"⟩] "t1" "done"
        (MoveResponse.forbidden moveDeniedMsg)).refetched = true ∧
    (handleTaskStatusChange [⟨"t1", "todo"⟩] [⟨"t1", "todo"⟩] "t1" "done"
        (MoveResponse.forbidden moveDeniedMsg)).surfaced = none ∧
    updateTaskStatusClient (MoveResponse.forbidden moveDeniedMsg) =
      Except.error "Failed to update task status" :=
  ⟨rfl, rfl, rfl⟩

/-- C7 (amended): whenever the move request fails — Forbidden, NotFound or
network error — the board handler re-fetches the full task list from the
server instead of locally reverting the one task; but the Forbidden reason
is not surfaced: the client layers reduce every failure to the fixed message
`Failed to update task status` and the handler leaves the user-facing error
state untouched. -/
theorem move_failure_full_refetch (tasks serverTasks : List ClientTask)
    (taskId newStatus : String) (r : MoveResponse)
    (hfail : ∀ t, r ≠ MoveResponse.ok t) :
    (handleTaskStatusChange tasks serverTasks taskId newStatus r).refetched = true ∧
    (handleTaskStatusChange tasks serverTasks taskId newStatus r).tasks = serverTasks ∧
    (handleTaskStatusChange tasks serverTasks taskId newStatus r).surfaced = none ∧
    updateTaskStatusClient r = Except.error "Failed to update task status" ∧
    (∀ reason, r = MoveResponse.forbidden reason →
      apiClientPatch r = Except.error "HTTP error! status: 403") := by
  cases r with
  | ok t => exact absurd rfl (hfail t)
  | forbidden reason =>
    exact ⟨rfl, rfl, rfl, rfl, fun _ _ => rfl⟩
  | notFoundErr =>
    refine ⟨rfl, rfl, rfl, rfl, ?_⟩
    intro reason h
    exact MoveResponse.noConfusion h
  | networkError m =>
    refine ⟨rfl, rfl, rfl, rfl, ?_⟩
    intro reason h
    exact MoveResponse.noConfusion h

/-- Witness for C7 (amended) at a concrete NotFound failure. -/
theorem move_failure_full_refetch_witness :
    (handleTaskStatusChange [⟨"t1", "todo"⟩] [] "t1" "done"
        MoveResponse.notFoundErr).refetched = true ∧
    (handleTaskStatusChange [⟨"t1", "todo"⟩] [] "t1" "done"
        MoveResponse.notFoundErr).tasks = [] ∧
    (handleTaskStatusChange [⟨"t1", "todo"⟩] [] "t1" "done"
        MoveResponse.notFoundErr).surfaced = none ∧
    updateTaskStatusClient MoveResponse.notFoundErr =
      Except.error "Failed to update task status" ∧
    (∀ reason, MoveResponse.notFoundErr = MoveResponse.forbidden reason →
      apiClientPatch MoveResponse.notFoundErr =
        Except.error "HTTP error! status: 403") :=
  move_failure_full_refetch [⟨"t1", "todo"⟩] [] "t1" "done"
    MoveResponse.notFoundErr (fun _ h => MoveResponse.noConfusion h)

end Kanban

namespace Kanban

theorem handleDragOver_no_calls (tasks : List ClientTask) (activeId : String)
    (over : Option String) : (handleDragOver tasks activeId over).calls = [] := by
  cases over with
  | none => rfl
  | some overId =>
    cases hfa : tasks.find? (fun t => t.id == activeId) with
    | none => simp only [handleDragOver, hfa]
    | some activeTask =>
      cases hoc : dragOverContainer tasks overId with
      | none => simp only [handleDragOver, hfa, hoc]
      | some oc =>
        simp only [handleDragOver, hfa, hoc]
        by_cases heq : (oc == activeTask.status) = true
        · rw [if_pos heq]
        · rw [if_neg heq]

/-- C8: during a drag gesture the drag-over handler issues no server call
and leaves the persisted store untouched (it only rewrites local state); at
drop time a move request is issued iff the resolved target status differs
from the status recorded at drag start, so a drop outside any valid target
or back onto the original column issues no call and leaves the persisted
status unchanged. -/
theorem drag_gesture_server_calls (tasks : List ClientTask)
    (orig : List (String × String)) (activeId : String) (over : Option String) :
    (handleDragOver tasks activeId over).calls = [] ∧
    (∀ (user : RouteUser) (s : Store),
      applyCalls user s (handleDragOver tasks activeId over).calls = s) ∧
    (over = none →
      (handleDragEnd tasks orig activeId over).calls = [] ∧
      (∀ (user : RouteUser) (s : Store),
        applyCalls user s (handleDragEnd tasks orig activeId over).calls = s)) ∧
    (∀ overId task os, over = some overId →
      tasks.find? (fun t => t.id == activeId) = some task →
      lookupOrig orig activeId = some os →
      ((handleDragEnd tasks orig activeId over).calls =
          (if dragEndTarget tasks overId os = os
            then [] else [⟨activeId, dragEndTarget tasks overId os⟩]) ∧
        (dragEndTarget tasks overId os = os →
          ∀ (user : RouteUser) (s : Store),
            applyCalls user s (handleDragEnd tasks orig activeId over).calls = s))) := by
  refine ⟨handleDragOver_no_calls tasks activeId over, ?_, ?_, ?_⟩
  · intro user s
    rw [handleDragOver_no_calls]
    rfl
  · intro hnone
    subst hnone
    exact ⟨rfl, fun user s => rfl⟩
  · intro overId task os hover hfind hlookup
    subst hover
    have hcalls : (handleDragEnd tasks orig activeId (some overId)).calls =
        (if dragEndTarget tasks overId os = os
          then [] else [⟨activeId, dragEndTarget tasks overId os⟩]) := by
      simp only [handleDragEnd, hfind, hlookup]
      by_cases h : dragEndTarget tasks overId os = os
      · rw [if_pos h]
        simp [h]
      · rw [if_neg h]
        simp [bne_iff_ne.mpr h]
    refine ⟨hcalls, ?_⟩
    intro h user s
    rw [hcalls, if_pos h]
    rfl

/-- Witness for C8: dropping task `t1` back onto its original column `todo`
issues no server request. -/
theorem drag_gesture_server_calls_witness :
    (handleDragEnd [⟨"t1", "todo"⟩] [("t1", "todo")] "t1" (some "todo")).calls =
        (if dragEndTarget [⟨"t1", "todo"⟩] "todo" "todo" = "todo"
          then [] else [⟨"t1", dragEndTarget [⟨"t1", "todo"⟩] "todo" "todo"⟩]) ∧
      (dragEndTarget [⟨"t1", "todo"⟩] "todo" "todo" = "todo" →
        ∀ (user : RouteUser) (s : Store),
          applyCalls user s
            (handleDragEnd [⟨"t1", "todo"⟩] [("t1", "todo")] "t1" (some "todo")).calls = s) :=
  (drag_gesture_server_calls [⟨"t1", "todo"⟩] [("t1", "todo")] "t1"
    (some "todo")).2.2.2 "todo" ⟨"t1", "todo"⟩ "todo" rfl (by decide) (by decide)

end Kanban
